import Mathlib

/-!
Shallow embedding of the adapter in `src/src/pure.js` (a testing-library
binding for a component-rendering runtime), together with theorems checking
the natural-language specification of the file against the code.

Modelling conventions:
* DOM nodes are identified by natural numbers: identity comparison on DOM
  elements becomes equality of identifiers.  `document.body` is node `bodyId`.
  The DOM is a parent map: a list of `(node, parent?)` pairs plus a counter
  providing fresh identifiers for `document.createElement`.
* Root-handles (the objects returned by `createConcurrentRoot` /
  `createLegacyRoot`) are records carrying an identity (`rootId`), whether the
  handle was constructed for hydration (`forHydration`, the captured `hydrate`
  flag of the factory) and whether it is a legacy root.  The runtime content
  mounted into each container is tracked in a `(container, element)` map so
  that the element handed to the runtime's render/hydrate calls is observable.
* React elements are an inductive datatype recording only the structure this
  file builds: an opaque leaf, the `React.StrictMode` wrapper, a
  caller-supplied wrapper component (identified by a number), and the
  throwaway `TestComponent` of `renderHook`.
* `async`/`await` and the `act` wrapper introduce no concurrency in this
  layer (single-threaded queue); every operation is modelled as a pure state
  transformer returning the new state together with an `Except` value
  (`Except.error` models a thrown/rejected error).
* An absent (`none`) option field models an omitted / `undefined` option.
-/

namespace ReactTestingLibrary

/-- Identifier of `document.body` in the DOM model. -/
def bodyId : Nat := 0

/-- The DOM as a parent map: `nodes` lists `(node id, parent id?)` pairs,
`nextId` supplies fresh identifiers for created elements. -/
structure Dom where
  nextId : Nat
  nodes : List (Nat × Option Nat)
deriving DecidableEq, Repr

/-- Identifiers of the nodes present in the DOM. -/
def domIds (d : Dom) : List Nat := d.nodes.map Prod.fst

/-- Look up the parent of node `c` in a parent-map list. -/
def lookupParent : List (Nat × Option Nat) → Nat → Option Nat
  | [], _ => none
  | n :: ns, c => if n.1 = c then n.2 else lookupParent ns c

/-- `c.parentNode` in the DOM model. -/
def parentNode (d : Dom) (c : Nat) : Option Nat := lookupParent d.nodes c

/-- `document.createElement('div')`: returns the fresh node and the new DOM. -/
def createElement (d : Dom) : Nat × Dom :=
  (d.nextId, { nextId := d.nextId + 1, nodes := d.nodes ++ [(d.nextId, none)] })

/-- `p.appendChild(c)`: re-parents node `c` under `p`. -/
def appendChild (d : Dom) (p c : Nat) : Dom :=
  { d with nodes := d.nodes.map (fun n => if n.1 = c then (n.1, some p) else n) }

/-- `p.removeChild(c)`: detaches `c` when its parent is `p`. -/
def removeChild (d : Dom) (p c : Nat) : Dom :=
  { d with nodes := d.nodes.map (fun n => if n.1 = c ∧ n.2 = some p then (n.1, none) else n) }

/-- React elements, restricted to the structure `pure.js` builds itself:
an opaque UI description, the strict-mode marker, a wrapper component
application, and `renderHook`'s internal `TestComponent`. -/
inductive ReactElement where
  | ui (tag : Nat)
  | strictMode (child : ReactElement)
  | wrap (wrapperComponent : Nat) (child : ReactElement)
  | testComponent (renderCallbackProps : Option Nat)
deriving DecidableEq, Repr

/-- Ambient runtime configuration: whether `typeof ReactDOM.render` is
`'function'`, and the global `reactStrictMode` flag of `getConfig()`. -/
structure Env where
  reactDOMRenderIsFunction : Bool
  reactStrictMode : Bool
deriving DecidableEq, Repr

/-- `strictModeIfNeeded` of `pure.js`: wrap in `React.StrictMode` when the
global configuration asks for it. -/
def strictModeIfNeeded (env : Env) (innerElement : ReactElement) : ReactElement :=
  if env.reactStrictMode then ReactElement.strictMode innerElement else innerElement

/-- `wrapUiIfNeeded` of `pure.js`: wrap in the caller-supplied wrapper
component when one is provided. -/
def wrapUiIfNeeded (innerElement : ReactElement) (wrapperComponent : Option Nat) : ReactElement :=
  match wrapperComponent with
  | some w => ReactElement.wrap w innerElement
  | none => innerElement

/-- A root-handle as produced by `createConcurrentRoot` / `createLegacyRoot`:
`rootId` models object identity, `forHydration` is the captured `hydrate`
flag, `legacy` tells which factory produced it. -/
structure RootHandle where
  rootId : Nat
  forHydration : Bool
  legacy : Bool
deriving DecidableEq, Repr

/-- Message of the configuration error thrown by `render` when `legacyRoot`
is requested but `ReactDOM.render` is not a function. -/
def legacyRootMessage : String :=
  "`legacyRoot: true` is not supported in this version of React. If your app runs React 19 or later, you should remove this flag. If your app runs React 18 or earlier, visit https://react.dev/blog/2022/03/08/react-18-upgrade-guide for upgrade instructions."

/-- Message of the corresponding error thrown by `renderHook` (a second,
textually identical literal in the source). -/
def renderHookLegacyRootMessage : String :=
  "`legacyRoot: true` is not supported in this version of React. If your app runs React 19 or later, you should remove this flag. If your app runs React 18 or earlier, visit https://react.dev/blog/2022/03/08/react-18-upgrade-guide for upgrade instructions."

/-- Message of the internal-invariant error of a concurrent root's
`hydrate()` method. -/
def nonHydrateableMessage : String :=
  "Attempted to hydrate a non-hydrateable root. This is a bug in `@testing-library/react`."

/-- Errors this layer can throw.  `undefinedRootAccess` models the TypeError
that would result from calling a method on an `undefined` root in the
(documented-unreachable) lookup-miss branch of `render`; `unmountFailed`
models an exception propagating out of a root's `unmount()` during
`cleanup`. -/
inductive RTLError where
  | legacyRootUnsupported (message : String)
  | nonHydrateableRoot (message : String)
  | undefinedRootAccess
  | unmountFailed
deriving DecidableEq, Repr

/-- Record `element` as the content mounted in `container` (replacing any
previous content). -/
def setContent (contents : List (Nat × ReactElement)) (container : Nat)
    (element : ReactElement) : List (Nat × ReactElement) :=
  (container, element) :: contents.filter (fun e => e.1 != container)

/-- Remove the content mounted in `container` (effect of unmounting). -/
def removeContent (contents : List (Nat × ReactElement)) (container : Nat) :
    List (Nat × ReactElement) :=
  contents.filter (fun e => e.1 != container)

/-- Content currently mounted in `container`, if any. -/
def getContent (contents : List (Nat × ReactElement)) (container : Nat) :
    Option ReactElement :=
  match contents.find? (fun e => e.1 == container) with
  | some e => some e.2
  | none => none

/-- The module-level mutable state of `pure.js`: the DOM, the root store
(`mountedContainers` set and `mountedRootEntries` list), a counter providing
root-handle identities, and the mounted content per container. -/
structure TLState where
  dom : Dom
  mountedContainers : List Nat
  mountedRootEntries : List (Nat × RootHandle)
  nextRootId : Nat
  contents : List (Nat × ReactElement)
deriving DecidableEq, Repr

/-- Initial state: a DOM holding only `document.body`, an empty root store. -/
def initState : TLState :=
  { dom := { nextId := 1, nodes := [(bodyId, none)] }
    mountedContainers := []
    mountedRootEntries := []
    nextRootId := 0
    contents := [] }

/-- `Set.add` on the container set: append when absent. -/
def setAdd (s : List Nat) (c : Nat) : List Nat :=
  if c ∈ s then s else s ++ [c]

/-- The `mountedRootEntries.forEach` lookup in `render`'s reuse branch: the
last entry whose container matches wins (`root` is reassigned per match). -/
def lookupRoot (entries : List (Nat × RootHandle)) (container : Nat) : Option RootHandle :=
  entries.foldl (fun acc e => if e.1 = container then some e.2 else acc) none

/-- Behaviour of a root-handle's `hydrate` method.  A legacy handle delegates
to the single-shot `ReactDOM.hydrate(element, container)`; a concurrent
handle throws the internal-invariant error unless it was constructed for
hydration, in which case it does nothing (hydration happened at creation). -/
def rootHydrate (r : RootHandle) (element : ReactElement) (container : Nat)
    (contents : List (Nat × ReactElement)) : Except RTLError (List (Nat × ReactElement)) :=
  if r.legacy then
    Except.ok (setContent contents container element)
  else if r.forHydration then
    Except.ok contents
  else
    Except.error (RTLError.nonHydrateableRoot nonHydrateableMessage)

/-- Behaviour of a root-handle's `render` method: both root kinds mount
`element` into the handle's container. -/
def rootRender (element : ReactElement) (container : Nat)
    (contents : List (Nat × ReactElement)) : List (Nat × ReactElement) :=
  setContent contents container element

/-- Options accepted by `render` / `renderHook` (the query set is external
and not modelled; `initialProps` is peeled off separately by `renderHook`). -/
structure RenderOptions where
  container : Option Nat := none
  baseElement : Option Nat := none
  legacyRoot : Bool := false
  hydrate : Bool := false
  wrapper : Option Nat := none
deriving DecidableEq, Repr

/-- Arguments of `renderRoot`. -/
structure RenderRootOptions where
  container : Nat
  baseElement : Nat
  hydrate : Bool
  root : RootHandle
  wrapper : Option Nat
deriving DecidableEq, Repr

/-- The observable core of the result bundle `renderRoot` returns (the
query/debug helpers are external closures over these fields; `rerender`
captures exactly `container`, `baseElement`, `root` and `wrapper`). -/
structure RenderResult where
  container : Nat
  baseElement : Nat
  root : RootHandle
  wrapper : Option Nat
deriving DecidableEq, Repr

/-- `renderRoot` of `pure.js`: decorate the UI with the wrapper component and
the strict-mode marker, then hydrate or render through the root-handle, and
return the result bundle. -/
def renderRoot (ui : ReactElement) (o : RenderRootOptions) (env : Env) (st : TLState) :
    TLState × Except RTLError RenderResult :=
  if o.hydrate = true then
    match rootHydrate o.root (strictModeIfNeeded env (wrapUiIfNeeded ui o.wrapper)) o.container st.contents with
    | Except.ok newContents =>
        ({ st with contents := newContents },
         Except.ok { container := o.container, baseElement := o.baseElement, root := o.root, wrapper := o.wrapper })
    | Except.error err => (st, Except.error err)
  else
    ({ st with contents := rootRender (strictModeIfNeeded env (wrapUiIfNeeded ui o.wrapper)) o.container st.contents },
     Except.ok { container := o.container, baseElement := o.baseElement, root := o.root, wrapper := o.wrapper })

/-- Resolution of `baseElement` in `render`: the default-parameter
`baseElement = container` followed by the `if (!baseElement)` fallback to
`document.body`. -/
def resolveBase (opts : RenderOptions) : Nat :=
  match opts.baseElement with
  | some b => b
  | none =>
      match opts.container with
      | some c => c
      | none => bodyId

/-- Resolution of `container` in `render`: when omitted,
`container = baseElement.appendChild(document.createElement('div'))`. -/
def resolveContainer (opts : RenderOptions) (base : Nat) (d : Dom) : Nat × Dom :=
  match opts.container with
  | some c => (c, d)
  | none =>
      let created := createElement d
      (created.1, appendChild created.2 base created.1)

/-- The root-creation path of `render`: builds the root-handle (a concurrent
root constructed with `hydrate := true` hydrates the decorated UI at creation
time), pushes the `(container, root)` entry and adds the container to the
set. -/
def createRootImpl (ui : ReactElement) (opts : RenderOptions) (env : Env)
    (container : Nat) (st : TLState) : RootHandle × TLState :=
  let root : RootHandle :=
    { rootId := st.nextRootId, forHydration := opts.hydrate, legacy := opts.legacyRoot }
  let st1 :=
    if opts.legacyRoot = false ∧ opts.hydrate = true then
      { st with contents := setContent st.contents container (strictModeIfNeeded env (wrapUiIfNeeded ui opts.wrapper)) }
    else st
  (root,
   { st1 with
     nextRootId := st1.nextRootId + 1
     mountedRootEntries := st1.mountedRootEntries ++ [(container, root)]
     mountedContainers := setAdd st1.mountedContainers container })

/-- Body of `render` after option resolution: the
`mountedContainers.has(container)` check, `mountedRootEntries.forEach`
lookup on the reuse branch, root creation and recording on the other, then
delegation to `renderRoot`. -/
def renderResolved (ui : ReactElement) (opts : RenderOptions) (env : Env)
    (container base : Nat) (st1 : TLState) : TLState × Except RTLError RenderResult :=
  if container ∈ st1.mountedContainers then
    match lookupRoot st1.mountedRootEntries container with
    | some root =>
        renderRoot ui { container := container, baseElement := base, hydrate := opts.hydrate, root := root, wrapper := opts.wrapper } env st1
    | none => (st1, Except.error RTLError.undefinedRootAccess)
  else
    renderRoot ui
      { container := container, baseElement := base, hydrate := opts.hydrate
        root := (createRootImpl ui opts env container st1).1, wrapper := opts.wrapper }
      env (createRootImpl ui opts env container st1).2

/-- `render` of `pure.js`: legacy-root capability guard, option resolution,
root-handle lookup-or-create, then delegation to `renderRoot`. -/
def render (ui : ReactElement) (opts : RenderOptions) (env : Env) (st : TLState) :
    TLState × Except RTLError RenderResult :=
  if opts.legacyRoot = true ∧ env.reactDOMRenderIsFunction = false then
    (st, Except.error (RTLError.legacyRootUnsupported legacyRootMessage))
  else
    renderResolved ui opts env (resolveContainer opts (resolveBase opts) st.dom).1
      (resolveBase opts) { st with dom := (resolveContainer opts (resolveBase opts) st.dom).2 }

/-- The `rerender` closure of the result bundle: re-invoke `renderRoot` with
the new UI against the captured container, base element, root-handle and
wrapper (no `hydrate` is passed, so the render path is taken), and discard
the produced bundle. -/
def rerender (res : RenderResult) (rerenderUi : ReactElement) (env : Env) (st : TLState) :
    TLState × Except RTLError Unit :=
  let next := renderRoot rerenderUi
    { container := res.container, baseElement := res.baseElement, hydrate := false, root := res.root, wrapper := res.wrapper } env st
  (next.1, next.2.map (fun _ => ()))

/-- One entry of `cleanup`'s `Promise.all` batch, parameterised by an oracle
telling which root-handles' `unmount()` throws (keyed by root identity): on a
throw the entry's detach step is skipped; otherwise the container's content is
unmounted and, if the container is a child of `document.body`, it is
detached. -/
def cleanupStep (fail : Nat → Bool) (acc : Dom × List (Nat × ReactElement))
    (e : Nat × RootHandle) : Dom × List (Nat × ReactElement) :=
  if fail e.2.rootId then acc
  else if parentNode acc.1 e.1 = some bodyId then
    (removeChild acc.1 bodyId e.1, removeContent acc.2 e.1)
  else (acc.1, removeContent acc.2 e.1)

/-- `cleanup` of `pure.js`, generalised by the unmount-failure oracle: run
every entry of the batch, and only when no unmount threw (the `Promise.all`
resolved) truncate the entry list and clear the container set. -/
def cleanupWith (fail : Nat → Bool) (st : TLState) : TLState × Except RTLError Unit :=
  if st.mountedRootEntries.any (fun e => fail e.2.rootId) then
    ({ st with
       dom := (st.mountedRootEntries.foldl (cleanupStep fail) (st.dom, st.contents)).1
       contents := (st.mountedRootEntries.foldl (cleanupStep fail) (st.dom, st.contents)).2 },
     Except.error RTLError.unmountFailed)
  else
    ({ st with
       dom := (st.mountedRootEntries.foldl (cleanupStep fail) (st.dom, st.contents)).1
       contents := (st.mountedRootEntries.foldl (cleanupStep fail) (st.dom, st.contents)).2
       mountedRootEntries := []
       mountedContainers := [] },
     Except.ok ())

/-- The oracle of the normal run: no unmount throws. -/
def noFail : Nat → Bool := fun _ => false

/-- `cleanup` of `pure.js` in the normal (no user exception) run. -/
def cleanup (st : TLState) : TLState × Except RTLError Unit := cleanupWith noFail st

/-- `renderHook` of `pure.js`: its own legacy-root capability guard, then a
`render` of the internal `TestComponent` carrying `initialProps` (the parts
of the hook bundle beyond the underlying render result are closures and not
modelled). -/
def renderHook (initialProps : Option Nat) (opts : RenderOptions) (env : Env) (st : TLState) :
    TLState × Except RTLError RenderResult :=
  if opts.legacyRoot = true ∧ env.reactDOMRenderIsFunction = false then
    (st, Except.error (RTLError.legacyRootUnsupported renderHookLegacyRootMessage))
  else
    render (ReactElement.testComponent initialProps) opts env st

/-- Public operations whose interleavings the store invariants quantify
over: a `render` call and a `cleanup` call (with its failure oracle). -/
inductive Op where
  | renderOp (ui : ReactElement) (opts : RenderOptions)
  | cleanupOp (fail : Nat → Bool)

/-- State transition of one public operation (results are discarded). -/
def runOp (env : Env) (st : TLState) : Op → TLState
  | Op.renderOp ui opts => (render ui opts env st).1
  | Op.cleanupOp fail => (cleanupWith fail st).1

/-- Run a sequence of public operations. -/
def runOps (env : Env) : TLState → List Op → TLState
  | st, [] => st
  | st, op :: ops => runOps env (runOp env st op) ops

/-- An operation is valid in a state when every caller-supplied container or
base element is an existing DOM node (in the browser, callers can only pass
elements that exist; identifiers are never forged). -/
def validOpB (st : TLState) : Op → Bool
  | Op.renderOp _ opts =>
      (match opts.container with
       | some c => decide (c ∈ domIds st.dom)
       | none => true) &&
      (match opts.baseElement with
       | some b => decide (b ∈ domIds st.dom)
       | none => true)
  | Op.cleanupOp _ => true

/-- Validity of a whole operation sequence from a starting state. -/
def validOpsB (env : Env) : TLState → List Op → Bool
  | _, [] => true
  | st, op :: ops => validOpB st op && validOpsB env (runOp env st op) ops

/-- Well-formedness of the adapter state: every DOM node identifier is below
the freshness counter, tracked containers are existing DOM nodes, the entry
list has no duplicate container, and the container set and the entry list
track exactly the same containers. -/
def IsWF (st : TLState) : Prop :=
  (∀ i ∈ domIds st.dom, i < st.dom.nextId) ∧
  (∀ c ∈ st.mountedContainers, c ∈ domIds st.dom) ∧
  (st.mountedRootEntries.map Prod.fst).Nodup ∧
  (∀ c, c ∈ st.mountedContainers ↔ c ∈ st.mountedRootEntries.map Prod.fst)

/-- Number of recorded root entries for a given container. -/
def rootsFor (c : Nat) (st : TLState) : Nat :=
  (st.mountedRootEntries.filter (fun e => e.1 == c)).length

/-- A default runtime: `ReactDOM.render` exists, strict mode off. -/
def defaultEnv : Env := { reactDOMRenderIsFunction := true, reactStrictMode := false }

/-- A DOM in which the caller has created their own element (node 1) and
attached it as a child of `document.body` before any render. -/
def callerDom : Dom := { nextId := 2, nodes := [(bodyId, none), (1, some bodyId)] }

/-- Start state for scenarios where the caller supplies their own container
(node 1, already attached under `document.body`). -/
def callerState : TLState :=
  { dom := callerDom
    mountedContainers := []
    mountedRootEntries := []
    nextRootId := 0
    contents := [] }

/-! ### Structural lemmas about `renderRoot` and the DOM operations -/

theorem renderRoot_store (ui : ReactElement) (o : RenderRootOptions) (env : Env) (st : TLState) :
    (renderRoot ui o env st).1.dom = st.dom ∧
    (renderRoot ui o env st).1.mountedContainers = st.mountedContainers ∧
    (renderRoot ui o env st).1.mountedRootEntries = st.mountedRootEntries ∧
    (renderRoot ui o env st).1.nextRootId = st.nextRootId := by
  unfold renderRoot
  split
  · split <;> simp
  · simp

theorem renderRoot_result (ui : ReactElement) (o : RenderRootOptions) (env : Env) (st : TLState)
    (res : RenderResult) (h : (renderRoot ui o env st).2 = Except.ok res) :
    res = { container := o.container, baseElement := o.baseElement, root := o.root, wrapper := o.wrapper } := by
  unfold renderRoot at h
  split at h
  · split at h <;> simp_all
  · simp_all

theorem renderRoot_error (ui : ReactElement) (o : RenderRootOptions) (env : Env) (st : TLState)
    (err : RTLError) (h : (renderRoot ui o env st).2 = Except.error err) :
    err = RTLError.nonHydrateableRoot nonHydrateableMessage := by
  unfold renderRoot at h
  split at h
  · split at h
    · simp_all
    · rename_i contents hr
      unfold rootHydrate at hr
      split at hr
      · simp_all
      · split at hr <;> simp_all
  · simp_all

theorem domIds_appendChild (d : Dom) (p c : Nat) :
    domIds (appendChild d p c) = domIds d := by
  unfold domIds appendChild
  simp only
  induction d.nodes with
  | nil => rfl
  | cons n ns ih =>
      simp only [List.map_cons, ih]
      split <;> rfl

theorem domIds_removeChild (d : Dom) (p c : Nat) :
    domIds (removeChild d p c) = domIds d := by
  unfold domIds removeChild
  simp only
  induction d.nodes with
  | nil => rfl
  | cons n ns ih =>
      simp only [List.map_cons, ih]
      split <;> rfl

theorem nextId_appendChild (d : Dom) (p c : Nat) :
    (appendChild d p c).nextId = d.nextId := rfl

theorem nextId_removeChild (d : Dom) (p c : Nat) :
    (removeChild d p c).nextId = d.nextId := rfl

theorem lookupParent_removeMap_ne (ns : List (Nat × Option Nat)) (p x c : Nat) (h : x ≠ c) :
    lookupParent (ns.map (fun n => if n.1 = x ∧ n.2 = some p then (n.1, none) else n)) c
      = lookupParent ns c := by
  induction ns with
  | nil => rfl
  | cons n ns ih =>
      simp only [List.map_cons, lookupParent]
      by_cases hx : n.1 = x ∧ n.2 = some p
      · simp only [if_pos hx, lookupParent]
        have hne : x ≠ c := h
        rw [if_neg (by simp only [hx.1]; exact hne), if_neg (by rw [hx.1]; exact hne), ih]
      · simp only [if_neg hx, lookupParent, ih]

theorem lookupParent_removeMap_self (ns : List (Nat × Option Nat)) (p x : Nat) :
    lookupParent (ns.map (fun n => if n.1 = x ∧ n.2 = some p then (n.1, none) else n)) x
      = if lookupParent ns x = some p then none else lookupParent ns x := by
  induction ns with
  | nil => simp [lookupParent]
  | cons n ns ih =>
      by_cases hn : n.1 = x
      · by_cases hp : n.2 = some p
        · simp [lookupParent, hn, hp]
        · simp [lookupParent, hn, hp]
      · have : ¬(n.1 = x ∧ n.2 = some p) := fun hc => hn hc.1
        simp only [List.map_cons, if_neg this, lookupParent, if_neg hn, ih]

theorem parentNode_removeChild_ne (d : Dom) (p x c : Nat) (h : x ≠ c) :
    parentNode (removeChild d p x) c = parentNode d c := by
  unfold parentNode removeChild
  exact lookupParent_removeMap_ne d.nodes p x c h

theorem parentNode_removeChild_self (d : Dom) (p x : Nat) :
    parentNode (removeChild d p x) x
      = if parentNode d x = some p then none else parentNode d x := by
  unfold parentNode removeChild
  exact lookupParent_removeMap_self d.nodes p x

theorem lookupParent_appendMap_self (ns : List (Nat × Option Nat)) (p c : Nat)
    (h : c ∈ ns.map Prod.fst) :
    lookupParent (ns.map (fun n => if n.1 = c then (n.1, some p) else n)) c = some p := by
  induction ns with
  | nil => simp at h
  | cons n ns ih =>
      by_cases hn : n.1 = c
      · simp [lookupParent, hn]
      · simp only [List.map_cons, if_neg hn, lookupParent, if_neg hn]
        apply ih
        simp only [List.map_cons, List.mem_cons] at h
        rcases h with h | h
        · exact absurd h.symm hn
        · exact h

theorem parentNode_appendChild_self (d : Dom) (p c : Nat) (h : c ∈ domIds d) :
    parentNode (appendChild d p c) c = some p := by
  unfold parentNode appendChild
  exact lookupParent_appendMap_self d.nodes p c h

/-! ### Lemmas about the `cleanup` fold -/

theorem cleanupStep_dom (fail : Nat → Bool) (acc : Dom × List (Nat × ReactElement))
    (e : Nat × RootHandle) :
    domIds (cleanupStep fail acc e).1 = domIds acc.1 ∧
    (cleanupStep fail acc e).1.nextId = acc.1.nextId := by
  unfold cleanupStep
  split
  · exact ⟨rfl, rfl⟩
  · split
    · exact ⟨domIds_removeChild acc.1 bodyId e.1, rfl⟩
    · exact ⟨rfl, rfl⟩

theorem cleanupFold_dom (fail : Nat → Bool) (l : List (Nat × RootHandle))
    (acc : Dom × List (Nat × ReactElement)) :
    domIds (l.foldl (cleanupStep fail) acc).1 = domIds acc.1 ∧
    (l.foldl (cleanupStep fail) acc).1.nextId = acc.1.nextId := by
  induction l generalizing acc with
  | nil => exact ⟨rfl, rfl⟩
  | cons e l ih =>
      simp only [List.foldl_cons]
      obtain ⟨h1, h2⟩ := ih (cleanupStep fail acc e)
      obtain ⟨g1, g2⟩ := cleanupStep_dom fail acc e
      exact ⟨h1.trans g1, h2.trans g2⟩

theorem cleanupStep_parent_ne (fail : Nat → Bool) (acc : Dom × List (Nat × ReactElement))
    (e : Nat × RootHandle) (c : Nat) (h : e.1 ≠ c) :
    parentNode (cleanupStep fail acc e).1 c = parentNode acc.1 c := by
  unfold cleanupStep
  split
  · rfl
  · split
    · exact parentNode_removeChild_ne acc.1 bodyId e.1 c h
    · rfl

theorem cleanupFold_parent_notmem (fail : Nat → Bool) (l : List (Nat × RootHandle))
    (acc : Dom × List (Nat × ReactElement)) (c : Nat) (h : c ∉ l.map Prod.fst) :
    parentNode (l.foldl (cleanupStep fail) acc).1 c = parentNode acc.1 c := by
  induction l generalizing acc with
  | nil => rfl
  | cons e l ih =>
      simp only [List.map_cons, List.mem_cons] at h
      push_neg at h
      simp only [List.foldl_cons]
      rw [ih (cleanupStep fail acc e) h.2,
        cleanupStep_parent_ne fail acc e c (Ne.symm h.1)]

theorem cleanupStep_parent_self (acc : Dom × List (Nat × ReactElement))
    (e : Nat × RootHandle) :
    parentNode (cleanupStep noFail acc e).1 e.1
      = if parentNode acc.1 e.1 = some bodyId then none else parentNode acc.1 e.1 := by
  unfold cleanupStep
  rw [if_neg (by simp [noFail] : ¬ noFail e.2.rootId = true)]
  by_cases hpar : parentNode acc.1 e.1 = some bodyId
  · rw [if_pos hpar, if_pos hpar]
    show parentNode (removeChild acc.1 bodyId e.1) e.1 = none
    rw [parentNode_removeChild_self acc.1 bodyId e.1, if_pos hpar]
  · rw [if_neg hpar, if_neg hpar]

theorem cleanupFold_parent_mem (l : List (Nat × RootHandle))
    (acc : Dom × List (Nat × ReactElement)) (c : Nat)
    (hnd : (l.map Prod.fst).Nodup) (hmem : c ∈ l.map Prod.fst) :
    parentNode (l.foldl (cleanupStep noFail) acc).1 c
      = if parentNode acc.1 c = some bodyId then none else parentNode acc.1 c := by
  induction l generalizing acc with
  | nil => simp at hmem
  | cons e l ih =>
      simp only [List.map_cons, List.nodup_cons] at hnd
      simp only [List.map_cons, List.mem_cons] at hmem
      simp only [List.foldl_cons]
      rcases hmem with hc | hc
      · subst hc
        rw [cleanupFold_parent_notmem noFail l (cleanupStep noFail acc e) e.1 hnd.1]
        exact cleanupStep_parent_self acc e
      · have hne : e.1 ≠ c := fun he => hnd.1 (he ▸ hc)
        rw [ih (cleanupStep noFail acc e) hnd.2 hc,
          cleanupStep_parent_ne noFail acc e c hne]

/-! ### Preservation of state well-formedness -/

theorem isWF_of_eq (st st' : TLState)
    (h1 : st'.dom = st.dom) (h2 : st'.mountedContainers = st.mountedContainers)
    (h3 : st'.mountedRootEntries = st.mountedRootEntries) (hwf : IsWF st) : IsWF st' := by
  unfold IsWF at hwf ⊢
  rw [h1, h2, h3]
  exact hwf

theorem createRootImpl_state (ui : ReactElement) (opts : RenderOptions) (env : Env)
    (container : Nat) (st : TLState) :
    (createRootImpl ui opts env container st).2.dom = st.dom ∧
    (createRootImpl ui opts env container st).2.mountedContainers
      = setAdd st.mountedContainers container ∧
    (createRootImpl ui opts env container st).2.mountedRootEntries
      = st.mountedRootEntries ++ [(container, (createRootImpl ui opts env container st).1)] ∧
    (createRootImpl ui opts env container st).2.nextRootId = st.nextRootId + 1 := by
  unfold createRootImpl
  dsimp only
  split <;> simp

theorem setAdd_notmem (s : List Nat) (c : Nat) (h : c ∉ s) : setAdd s c = s ++ [c] := by
  simp [setAdd, h]

theorem isWF_initState : IsWF initState := by
  refine ⟨?_, ?_, ?_, ?_⟩
  · intro i hi
    simp only [initState, domIds, List.map_cons, List.map_nil, List.mem_singleton] at hi
    simp [initState, hi, bodyId]
  · intro c hc
    exact absurd hc (List.not_mem_nil c)
  · exact List.nodup_nil
  · intro c
    exact Iff.rfl

theorem validOpB_container (st : TLState) (ui : ReactElement) (opts : RenderOptions)
    (hv : validOpB st (Op.renderOp ui opts) = true) :
    ∀ c, opts.container = some c → c ∈ domIds st.dom := by
  intro c hc
  have hv' : ((match opts.container with
       | some c => decide (c ∈ domIds st.dom)
       | none => true) &&
      (match opts.baseElement with
       | some b => decide (b ∈ domIds st.dom)
       | none => true)) = true := hv
  rw [hc] at hv'
  simp only [Bool.and_eq_true, decide_eq_true_eq] at hv'
  exact hv'.1

theorem resolveContainer_some (opts : RenderOptions) (base : Nat) (d : Dom)
    (c : Nat) (h : opts.container = some c) :
    resolveContainer opts base d = (c, d) := by
  simp [resolveContainer, h]

theorem resolveContainer_none (opts : RenderOptions) (base : Nat) (d : Dom)
    (h : opts.container = none) :
    (resolveContainer opts base d).1 = d.nextId ∧
    domIds (resolveContainer opts base d).2 = domIds d ++ [d.nextId] ∧
    (resolveContainer opts base d).2.nextId = d.nextId + 1 := by
  have hrc : resolveContainer opts base d
      = (d.nextId, appendChild { nextId := d.nextId + 1, nodes := d.nodes ++ [(d.nextId, none)] } base d.nextId) := by
    simp [resolveContainer, h, createElement]
  rw [hrc]
  refine ⟨rfl, ?_, rfl⟩
  rw [domIds_appendChild]
  simp [domIds]

theorem resolveContainer_wf (opts : RenderOptions) (base : Nat) (d : Dom)
    (hfresh : ∀ i ∈ domIds d, i < d.nextId)
    (hvc : ∀ c, opts.container = some c → c ∈ domIds d) :
    (∀ i ∈ domIds (resolveContainer opts base d).2, i < (resolveContainer opts base d).2.nextId) ∧
    (∀ i ∈ domIds d, i ∈ domIds (resolveContainer opts base d).2) ∧
    (resolveContainer opts base d).1 ∈ domIds (resolveContainer opts base d).2 := by
  cases hc : opts.container with
  | some c =>
      rw [resolveContainer_some opts base d c hc]
      exact ⟨hfresh, fun i h => h, hvc c hc⟩
  | none =>
      obtain ⟨h1, h2, h3⟩ := resolveContainer_none opts base d hc
      rw [h1, h2, h3]
      refine ⟨?_, ?_, ?_⟩
      · intro i hi
        rcases List.mem_append.mp hi with hi | hi
        · exact Nat.lt_succ_of_lt (hfresh i hi)
        · simp only [List.mem_singleton] at hi
          omega
      · intro i hi
        exact List.mem_append.mpr (Or.inl hi)
      · exact List.mem_append.mpr (Or.inr (List.mem_singleton.mpr rfl))

theorem isWF_renderResolved (ui : ReactElement) (opts : RenderOptions) (env : Env)
    (container base : Nat) (st1 : TLState)
    (hwf : IsWF st1) (hcmem : container ∈ domIds st1.dom) :
    IsWF (renderResolved ui opts env container base st1).1 := by
  unfold renderResolved
  split
  · split
    · exact isWF_of_eq st1 _ (renderRoot_store _ _ _ _).1 (renderRoot_store _ _ _ _).2.1
        (renderRoot_store _ _ _ _).2.2.1 hwf
    · exact hwf
  · rename_i hnotin
    obtain ⟨hd, hmc, hent, _⟩ := createRootImpl_state ui opts env container st1
    obtain ⟨w1, w2, w3, w4⟩ := hwf
    have hnotfst : container ∉ st1.mountedRootEntries.map Prod.fst :=
      fun h => hnotin ((w4 container).mpr h)
    have hwf2 : IsWF (createRootImpl ui opts env container st1).2 := by
      refine ⟨?_, ?_, ?_, ?_⟩
      · rw [hd]; exact w1
      · rw [hd, hmc, setAdd_notmem _ _ hnotin]
        intro x hx
        rcases List.mem_append.mp hx with hx | hx
        · exact w2 x hx
        · simp only [List.mem_singleton] at hx
          exact hx ▸ hcmem
      · rw [hent]
        simp only [List.map_append, List.map_cons, List.map_nil]
        rw [List.nodup_append]
        exact ⟨w3, List.nodup_singleton container,
          fun a ha hb => hnotfst ((List.mem_singleton.mp hb) ▸ ha)⟩
      · intro x
        rw [hmc, setAdd_notmem _ _ hnotin, hent]
        simp only [List.map_append, List.map_cons, List.map_nil, List.mem_append,
          List.mem_singleton, List.mem_cons, List.not_mem_nil, or_false]
        rw [w4 x]
    exact isWF_of_eq _ _ (renderRoot_store _ _ _ _).1 (renderRoot_store _ _ _ _).2.1
      (renderRoot_store _ _ _ _).2.2.1 hwf2

theorem isWF_render (ui : ReactElement) (opts : RenderOptions) (env : Env) (st : TLState)
    (hwf : IsWF st) (hv : validOpB st (Op.renderOp ui opts) = true) :
    IsWF (render ui opts env st).1 := by
  unfold render
  split
  · exact hwf
  · obtain ⟨w1, w2, w3, w4⟩ := hwf
    obtain ⟨r1, r2, r3⟩ := resolveContainer_wf opts (resolveBase opts) st.dom w1
      (validOpB_container st ui opts hv)
    exact isWF_renderResolved ui opts env _ _ _
      ⟨r1, fun c hc => r2 c (w2 c hc), w3, w4⟩ r3

theorem isWF_cleanupWith (fail : Nat → Bool) (st : TLState) (hwf : IsWF st) :
    IsWF (cleanupWith fail st).1 := by
  obtain ⟨w1, w2, w3, w4⟩ := hwf
  obtain ⟨f1, f2⟩ := cleanupFold_dom fail st.mountedRootEntries (st.dom, st.contents)
  unfold cleanupWith
  split
  · refine ⟨?_, ?_, w3, w4⟩
    · intro i hi
      rw [f2]
      exact w1 i (f1 ▸ hi)
    · intro c hc
      rw [f1]
      exact w2 c hc
  · refine ⟨?_, ?_, ?_, ?_⟩
    · intro i hi
      rw [f2]
      exact w1 i (f1 ▸ hi)
    · intro c hc
      exact absurd hc (List.not_mem_nil c)
    · exact List.nodup_nil
    · intro c
      exact Iff.rfl

theorem isWF_runOp (env : Env) (st : TLState) (op : Op)
    (hwf : IsWF st) (hv : validOpB st op = true) : IsWF (runOp env st op) := by
  cases op with
  | renderOp ui opts => exact isWF_render ui opts env st hwf hv
  | cleanupOp fail => exact isWF_cleanupWith fail st hwf

theorem isWF_runOps (env : Env) (ops : List Op) (st : TLState)
    (hwf : IsWF st) (hv : validOpsB env st ops = true) : IsWF (runOps env st ops) := by
  induction ops generalizing st with
  | nil => exact hwf
  | cons op ops ih =>
      unfold validOpsB at hv
      rw [Bool.and_eq_true] at hv
      exact ih (runOp env st op) (isWF_runOp env st op hwf hv.1) hv.2

/-! ### Shape lemmas about `renderResolved` and `render` -/

theorem renderResolved_tracked (ui : ReactElement) (opts : RenderOptions) (env : Env)
    (container base : Nat) (st1 : TLState) (hmem : container ∈ st1.mountedContainers) :
    (renderResolved ui opts env container base st1).1.mountedRootEntries = st1.mountedRootEntries ∧
    (renderResolved ui opts env container base st1).1.mountedContainers = st1.mountedContainers ∧
    (renderResolved ui opts env container base st1).1.nextRootId = st1.nextRootId ∧
    (renderResolved ui opts env container base st1).1.dom = st1.dom ∧
    ∀ res, (renderResolved ui opts env container base st1).2 = Except.ok res →
      lookupRoot st1.mountedRootEntries container = some res.root := by
  unfold renderResolved
  rw [if_pos hmem]
  cases hl : lookupRoot st1.mountedRootEntries container with
  | some root =>
      refine ⟨(renderRoot_store _ _ _ _).2.2.1, (renderRoot_store _ _ _ _).2.1,
        (renderRoot_store _ _ _ _).2.2.2, (renderRoot_store _ _ _ _).1, ?_⟩
      intro res hres
      rw [renderRoot_result _ _ _ _ res hres]
  | none =>
      refine ⟨rfl, rfl, rfl, rfl, ?_⟩
      intro res hres
      exact absurd hres (by simp)

theorem render_tracked (ui : ReactElement) (opts : RenderOptions) (env : Env)
    (st : TLState) (c : Nat)
    (hcont : opts.container = some c) (hmem : c ∈ st.mountedContainers) :
    (render ui opts env st).1.mountedRootEntries = st.mountedRootEntries ∧
    (render ui opts env st).1.nextRootId = st.nextRootId ∧
    ∀ res, (render ui opts env st).2 = Except.ok res →
      lookupRoot st.mountedRootEntries c = some res.root := by
  unfold render
  split
  · exact ⟨rfl, rfl, fun res hres => absurd hres (by simp)⟩
  · rw [resolveContainer_some opts (resolveBase opts) st.dom c hcont]
    obtain ⟨h1, _, h3, _, h5⟩ :=
      renderResolved_tracked ui opts env c (resolveBase opts) { st with dom := st.dom } hmem
    exact ⟨h1, h3, h5⟩

theorem renderResolved_result (ui : ReactElement) (opts : RenderOptions) (env : Env)
    (container base : Nat) (st1 : TLState) (res : RenderResult)
    (h : (renderResolved ui opts env container base st1).2 = Except.ok res) :
    res.container = container ∧ res.baseElement = base := by
  unfold renderResolved at h
  split at h
  · split at h
    · rw [renderRoot_result _ _ _ _ res h]
      exact ⟨rfl, rfl⟩
    · exact absurd h (by simp)
  · rw [renderRoot_result _ _ _ _ res h]
    exact ⟨rfl, rfl⟩

theorem renderResolved_error (ui : ReactElement) (opts : RenderOptions) (env : Env)
    (container base : Nat) (st1 : TLState) (err : RTLError)
    (h : (renderResolved ui opts env container base st1).2 = Except.error err) :
    err = RTLError.undefinedRootAccess ∨ err = RTLError.nonHydrateableRoot nonHydrateableMessage := by
  unfold renderResolved at h
  split at h
  · split at h
    · exact Or.inr (renderRoot_error _ _ _ _ _ h)
    · simp only [Except.error.injEq] at h
      exact Or.inl h.symm
  · exact Or.inr (renderRoot_error _ _ _ _ _ h)

theorem render_no_legacy_error (ui : ReactElement) (opts : RenderOptions) (env : Env)
    (st : TLState) (m : String)
    (hg : ¬(opts.legacyRoot = true ∧ env.reactDOMRenderIsFunction = false)) :
    (render ui opts env st).2 ≠ Except.error (RTLError.legacyRootUnsupported m) := by
  unfold render
  rw [if_neg hg]
  intro hcon
  rcases renderResolved_error _ _ _ _ _ _ _ hcon with h | h <;> simp at h

theorem length_filter_fst_le_one {α : Type} (l : List (Nat × α)) (c : Nat)
    (h : (l.map Prod.fst).Nodup) : (l.filter (fun e => e.1 == c)).length ≤ 1 := by
  induction l with
  | nil => exact Nat.zero_le 1
  | cons a l ih =>
      simp only [List.map_cons, List.nodup_cons] at h
      by_cases hc : a.1 = c
      · rw [List.filter_cons, if_pos (by simp [hc])]
        have hnil : l.filter (fun e => e.1 == c) = [] := by
          rw [List.filter_eq_nil_iff]
          intro e he
          simp only [beq_iff_eq]
          intro hec
          exact h.1 (List.mem_map.mpr ⟨e, he, by rw [hec, hc]⟩)
        simp [hnil]
      · rw [List.filter_cons, if_neg (by simp [hc])]
        exact ih h.2

/-! ### Claim theorems -/

/-- Claim C1: over every valid sequence of `render` calls from the initial
state, at most one root-handle is ever recorded per container (render-only
sequences never drop entries, so recorded equals created: the first render
into a container creates and records its root-handle), and every further
`render` into an already-tracked container adds no entry, allocates no root
identity, and hands back exactly the recorded root-handle. -/
theorem render_creates_at_most_one_root_per_container
    (env : Env) (ops : List (ReactElement × RenderOptions)) (c : Nat)
    (h : validOpsB env initState (ops.map (fun p => Op.renderOp p.1 p.2)) = true) :
    rootsFor c (runOps env initState (ops.map (fun p => Op.renderOp p.1 p.2))) ≤ 1 ∧
    ∀ ui opts st, opts.container = some c → c ∈ st.mountedContainers →
      (render ui opts env st).1.mountedRootEntries = st.mountedRootEntries ∧
      (render ui opts env st).1.nextRootId = st.nextRootId ∧
      ∀ res, (render ui opts env st).2 = Except.ok res →
        lookupRoot st.mountedRootEntries c = some res.root := by
  constructor
  · have hwf := isWF_runOps env (ops.map (fun p => Op.renderOp p.1 p.2)) initState isWF_initState h
    exact length_filter_fst_le_one _ c hwf.2.2.1
  · intro ui opts st hcont hmem
    exact render_tracked ui opts env st c hcont hmem

/-- Witness for C1: a single default render records container 1 once. -/
theorem render_creates_at_most_one_root_per_container_witness :
    validOpsB defaultEnv initState
      ([(ReactElement.ui 0, {})].map (fun p => Op.renderOp p.1 p.2)) = true ∧
    rootsFor 1 (runOps defaultEnv initState
      ([(ReactElement.ui 0, {})].map (fun p => Op.renderOp p.1 p.2))) ≤ 1 :=
  ⟨by decide,
   (render_creates_at_most_one_root_per_container defaultEnv [(ReactElement.ui 0, {})] 1
     (by decide)).1⟩

/-- Counterexample to claim C2 as stated: a caller-supplied container that
happens to be a child of `document.body` is detached by `cleanup`, because
the code keys the detach step on the container's current parent, not on who
created it. -/
theorem cleanup_detaches_caller_supplied_container :
    parentNode callerState.dom 1 = some bodyId ∧
    (cleanup (render (ReactElement.ui 0) { container := some 1 } defaultEnv callerState).1).2
      = Except.ok () ∧
    parentNode (cleanup (render (ReactElement.ui 0) { container := some 1 } defaultEnv
      callerState).1).1.dom 1 = none := by
  refine ⟨rfl, rfl, rfl⟩

/-- Claim C2, amended: after `cleanup()` resolves, the tracked-root store is
empty, and every tracked container that was a child of `document.body` at
cleanup time — in particular every container render auto-created and
appended to the body — has been detached, while tracked containers not under
the body keep their parent.  (Caller-supplied containers sitting under the
body are also detached, contrary to the original claim.) -/
theorem cleanup_empties_store_and_detaches_body_children (st : TLState)
    (h : (st.mountedRootEntries.map Prod.fst).Nodup) :
    (cleanup st).1.mountedContainers = [] ∧
    (cleanup st).1.mountedRootEntries = [] ∧
    (cleanup st).2 = Except.ok () ∧
    ∀ c ∈ st.mountedRootEntries.map Prod.fst,
      parentNode (cleanup st).1.dom c
        = if parentNode st.dom c = some bodyId then none else parentNode st.dom c := by
  unfold cleanup cleanupWith
  rw [if_neg (by simp [noFail] :
    ¬ st.mountedRootEntries.any (fun e => noFail e.2.rootId) = true)]
  refine ⟨rfl, rfl, rfl, ?_⟩
  intro c hc
  exact cleanupFold_parent_mem st.mountedRootEntries (st.dom, st.contents) c h hc

/-- Witness for C2 (amended): cleanup after one default render empties the
store and detaches the auto-created container from the body. -/
theorem cleanup_empties_store_and_detaches_body_children_witness :
    (((render (ReactElement.ui 0) {} defaultEnv initState).1.mountedRootEntries.map
        Prod.fst).Nodup) ∧
    (cleanup (render (ReactElement.ui 0) {} defaultEnv initState).1).1.mountedContainers = [] :=
  ⟨by decide,
   (cleanup_empties_store_and_detaches_body_children
     (render (ReactElement.ui 0) {} defaultEnv initState).1 (by decide)).1⟩

/-- Counterexample to claim C3 as stated: the throwing branch of a
concurrent root-handle's `hydrate()` is reachable through the public
surface — render into the auto-created container (node 1), then render again
into the same container with `hydrate: true`; the reused root was not
constructed for hydration and `renderRoot` invokes its `hydrate()`, which
throws the internal-invariant error. -/
theorem hydrate_invariant_error_reachable :
    (render (ReactElement.ui 1) { container := some 1, hydrate := true } defaultEnv
      (render (ReactElement.ui 0) {} defaultEnv initState).1).2
      = Except.error (RTLError.nonHydrateableRoot nonHydrateableMessage) := by
  rfl

/-- Claim C3, amended: a concurrent root-handle's `hydrate()` throws the
internal-invariant error exactly when the handle was not constructed for
hydration, and is a no-op otherwise; the throwing branch is however
reachable through the public surface (render without `hydrate`, then render
into the same container with `hydrate: true`). -/
theorem hydrate_throws_iff_not_for_hydration (r : RootHandle) (e : ReactElement)
    (c : Nat) (contents : List (Nat × ReactElement)) (h : r.legacy = false) :
    (rootHydrate r e c contents
        = Except.error (RTLError.nonHydrateableRoot nonHydrateableMessage)
      ↔ r.forHydration = false) ∧
    (r.forHydration = true → rootHydrate r e c contents = Except.ok contents) := by
  unfold rootHydrate
  rw [h]
  cases hf : r.forHydration <;> simp [hf]

/-- Witness for C3 (amended): a concurrent non-hydration handle throws. -/
theorem hydrate_throws_iff_not_for_hydration_witness :
    ({ rootId := 0, forHydration := false, legacy := false } : RootHandle).legacy = false ∧
    (rootHydrate { rootId := 0, forHydration := false, legacy := false }
        (ReactElement.ui 0) 1 []
        = Except.error (RTLError.nonHydrateableRoot nonHydrateableMessage)
      ↔ ({ rootId := 0, forHydration := false, legacy := false } : RootHandle).forHydration
          = false) :=
  ⟨rfl,
   (hydrate_throws_iff_not_for_hydration
     { rootId := 0, forHydration := false, legacy := false }
     (ReactElement.ui 0) 1 [] rfl).1⟩

/-- Claim C4: requesting `legacyRoot: true` when the runtime has no
single-shot mount API makes `render` throw the legacy-root-unsupported
configuration error (with the remediation message) while leaving the whole
state — in particular the DOM — untouched: it throws before creating or
appending the default container. -/
theorem legacy_root_guard_throws_before_dom_mutation (ui : ReactElement)
    (opts : RenderOptions) (env : Env) (st : TLState)
    (h1 : opts.legacyRoot = true) (h2 : env.reactDOMRenderIsFunction = false) :
    render ui opts env st
      = (st, Except.error (RTLError.legacyRootUnsupported legacyRootMessage)) := by
  unfold render
  rw [if_pos ⟨h1, h2⟩]

/-- Witness for C4 at a concrete runtime without `ReactDOM.render`. -/
theorem legacy_root_guard_throws_before_dom_mutation_witness :
    ({ legacyRoot := true } : RenderOptions).legacyRoot = true ∧
    ({ reactDOMRenderIsFunction := false, reactStrictMode := false } : Env).reactDOMRenderIsFunction = false ∧
    render (ReactElement.ui 0) { legacyRoot := true }
        { reactDOMRenderIsFunction := false, reactStrictMode := false } initState
      = (initState, Except.error (RTLError.legacyRootUnsupported legacyRootMessage)) :=
  ⟨rfl, rfl,
   legacy_root_guard_throws_before_dom_mutation (ReactElement.ui 0) { legacyRoot := true }
     { reactDOMRenderIsFunction := false, reactStrictMode := false } initState rfl rfl⟩

/-- Counterexample to claim C5 as stated: when a container is supplied and
`baseElement` is omitted, the base element defaults to the container itself
(the `baseElement = container` default parameter), not to `document.body`. -/
theorem base_element_defaults_to_container_not_body :
    (render (ReactElement.ui 0) { container := some 1 } defaultEnv callerState).2
      = Except.ok { container := 1
                    baseElement := 1
                    root := { rootId := 0, forHydration := false, legacy := false }
                    wrapper := none } ∧
    (1 : Nat) ≠ bodyId := by
  exact ⟨rfl, by decide⟩

/-- Claim C5, amended: an omitted `baseElement` defaults to the container
when one is supplied and to `document.body` only when the container is also
omitted; an omitted container defaults to a freshly created element appended
as a child of the resolved base element, and the returned bundle carries the
resolved base element and container. -/
theorem render_base_and_container_defaults (ui : ReactElement) (opts : RenderOptions)
    (env : Env) (st : TLState) :
    (opts.baseElement = none → opts.container = none → resolveBase opts = bodyId) ∧
    (∀ c, opts.baseElement = none → opts.container = some c → resolveBase opts = c) ∧
    (∀ b, opts.baseElement = some b → resolveBase opts = b) ∧
    (∀ res, (render ui opts env st).2 = Except.ok res →
      res.baseElement = resolveBase opts ∧
      res.container = (resolveContainer opts (resolveBase opts) st.dom).1) ∧
    (opts.container = none →
      (resolveContainer opts (resolveBase opts) st.dom).1 = st.dom.nextId ∧
      parentNode (resolveContainer opts (resolveBase opts) st.dom).2 st.dom.nextId
        = some (resolveBase opts)) := by
  refine ⟨?_, ?_, ?_, ?_, ?_⟩
  · intro hb hc
    simp [resolveBase, hb, hc]
  · intro c hb hc
    simp [resolveBase, hb, hc]
  · intro b hb
    simp [resolveBase, hb]
  · intro res hres
    unfold render at hres
    split at hres
    · exact absurd hres (by simp)
    · obtain ⟨g1, g2⟩ := renderResolved_result _ _ _ _ _ _ _ hres
      exact ⟨g2, g1⟩
  · intro hc
    obtain ⟨h1, -, -⟩ := resolveContainer_none opts (resolveBase opts) st.dom hc
    refine ⟨h1, ?_⟩
    have hrc : resolveContainer opts (resolveBase opts) st.dom
        = (st.dom.nextId,
           appendChild { nextId := st.dom.nextId + 1, nodes := st.dom.nodes ++ [(st.dom.nextId, none)] }
             (resolveBase opts) st.dom.nextId) := by
      simp [resolveContainer, hc, createElement]
    rw [hrc]
    exact parentNode_appendChild_self _ _ _ (by simp [domIds])

/-- Witness for C5 (amended): with both options omitted the base element is
the body, and the container is the fresh node `initState.dom.nextId`. -/
theorem render_base_and_container_defaults_witness :
    ({} : RenderOptions).baseElement = none ∧ ({} : RenderOptions).container = none ∧
    resolveBase {} = bodyId ∧
    (resolveContainer {} (resolveBase {}) initState.dom).1 = initState.dom.nextId :=
  ⟨rfl, rfl,
   (render_base_and_container_defaults (ReactElement.ui 0) {} defaultEnv initState).1 rfl rfl,
   ((render_base_and_container_defaults (ReactElement.ui 0) {} defaultEnv initState).2.2.2.2
     rfl).1⟩

/-- Claim C6: `rerender` is exactly a re-invocation of the mount path
(`renderRoot`) with the new UI against the captured container, base element,
root-handle and wrapper: it resolves to `undefined`, leaves the DOM, the
container set, the entry list and the root-identity counter unchanged (no
new container, no new root-handle), and its only effect is mounting the
decorated new UI into the same container. -/
theorem rerender_reuses_container_and_root (res : RenderResult) (ui : ReactElement)
    (env : Env) (st : TLState) :
    rerender res ui env st
      = ((renderRoot ui { container := res.container
                          baseElement := res.baseElement
                          hydrate := false
                          root := res.root
                          wrapper := res.wrapper } env st).1,
         Except.ok ()) ∧
    (rerender res ui env st).1.mountedContainers = st.mountedContainers ∧
    (rerender res ui env st).1.mountedRootEntries = st.mountedRootEntries ∧
    (rerender res ui env st).1.nextRootId = st.nextRootId ∧
    (rerender res ui env st).1.dom = st.dom ∧
    (rerender res ui env st).1.contents
      = setContent st.contents res.container
          (strictModeIfNeeded env (wrapUiIfNeeded ui res.wrapper)) := by
  exact ⟨rfl, rfl, rfl, rfl, rfl, rfl⟩

/-- Claim C7: the UI mounted through `renderRoot` is decorated by applying
the caller-supplied wrapper component first (innermost) and the strict-mode
marker second (outermost); with neither configured the UI passes through
unchanged.  The first two conjuncts show the decorated element is what gets
mounted (render path, and legacy hydrate path). -/
theorem render_root_wrapping_order (ui : ReactElement) (o : RenderRootOptions)
    (env : Env) (st : TLState) :
    (o.hydrate = false →
      (renderRoot ui o env st).1.contents
        = setContent st.contents o.container
            (strictModeIfNeeded env (wrapUiIfNeeded ui o.wrapper))) ∧
    (o.hydrate = true → o.root.legacy = true →
      (renderRoot ui o env st).1.contents
        = setContent st.contents o.container
            (strictModeIfNeeded env (wrapUiIfNeeded ui o.wrapper))) ∧
    (env.reactStrictMode = true → ∀ hw, o.wrapper = some hw →
      strictModeIfNeeded env (wrapUiIfNeeded ui o.wrapper)
        = ReactElement.strictMode (ReactElement.wrap hw ui)) ∧
    (env.reactStrictMode = false → o.wrapper = none →
      strictModeIfNeeded env (wrapUiIfNeeded ui o.wrapper) = ui) := by
  refine ⟨?_, ?_, ?_, ?_⟩
  · intro h
    unfold renderRoot
    rw [if_neg (by simp [h])]
    rfl
  · intro h1 h2
    unfold renderRoot
    rw [if_pos h1]
    unfold rootHydrate
    rw [if_pos h2]
  · intro h1 hw h2
    simp [strictModeIfNeeded, wrapUiIfNeeded, h1, h2]
  · intro h1 h2
    simp [strictModeIfNeeded, wrapUiIfNeeded, h1, h2]

/-- Witness for C7: wrapper 5 applied innermost, strict mode outermost. -/
theorem render_root_wrapping_order_witness :
    ({ reactDOMRenderIsFunction := true, reactStrictMode := true } : Env).reactStrictMode = true ∧
    strictModeIfNeeded { reactDOMRenderIsFunction := true, reactStrictMode := true }
        (wrapUiIfNeeded (ReactElement.ui 0) (some 5))
      = ReactElement.strictMode (ReactElement.wrap 5 (ReactElement.ui 0)) :=
  ⟨rfl,
   (render_root_wrapping_order (ReactElement.ui 0)
     { container := 1, baseElement := 0, hydrate := false,
       root := { rootId := 0, forHydration := false, legacy := false }, wrapper := some 5 }
     { reactDOMRenderIsFunction := true, reactStrictMode := true } initState).2.2.1
     rfl 5 rfl⟩

/-- Claim C8: after every valid sequence of complete `render` and `cleanup`
operations from the initial state, the container set and the entry list of
the root store are in bijection: the entry list mentions each container at
most once, and it mentions exactly the containers in the set. -/
theorem store_set_entries_bijection (env : Env) (ops : List Op)
    (h : validOpsB env initState ops = true) :
    ((runOps env initState ops).mountedRootEntries.map Prod.fst).Nodup ∧
    ∀ c, c ∈ (runOps env initState ops).mountedContainers ↔
      c ∈ (runOps env initState ops).mountedRootEntries.map Prod.fst := by
  obtain ⟨-, -, w3, w4⟩ := isWF_runOps env ops initState isWF_initState h
  exact ⟨w3, w4⟩

/-- Witness for C8 over a render, a cleanup and another render. -/
theorem store_set_entries_bijection_witness :
    validOpsB defaultEnv initState
      [Op.renderOp (ReactElement.ui 0) {}, Op.cleanupOp noFail,
       Op.renderOp (ReactElement.ui 1) {}] = true ∧
    ((runOps defaultEnv initState
      [Op.renderOp (ReactElement.ui 0) {}, Op.cleanupOp noFail,
       Op.renderOp (ReactElement.ui 1) {}]).mountedRootEntries.map Prod.fst).Nodup :=
  ⟨by decide,
   (store_set_entries_bijection defaultEnv
     [Op.renderOp (ReactElement.ui 0) {}, Op.cleanupOp noFail,
      Op.renderOp (ReactElement.ui 1) {}] (by decide)).1⟩

/-- Claim C9: `renderHook` performs the same legacy-root capability check as
`render`: it throws the legacy-root-unsupported error exactly when
`legacyRoot` is requested and the runtime has no single-shot mount API —
precisely the condition under which `render` throws — and its error message
is the same string as `render`'s. -/
theorem render_hook_legacy_guard_matches_render (initialProps : Option Nat)
    (opts : RenderOptions) (env : Env) (st : TLState) :
    renderHookLegacyRootMessage = legacyRootMessage ∧
    ((renderHook initialProps opts env st).2
        = Except.error (RTLError.legacyRootUnsupported renderHookLegacyRootMessage)
      ↔ opts.legacyRoot = true ∧ env.reactDOMRenderIsFunction = false) ∧
    ((render (ReactElement.testComponent initialProps) opts env st).2
        = Except.error (RTLError.legacyRootUnsupported legacyRootMessage)
      ↔ opts.legacyRoot = true ∧ env.reactDOMRenderIsFunction = false) := by
  refine ⟨rfl, ?_, ?_⟩
  · by_cases hg : opts.legacyRoot = true ∧ env.reactDOMRenderIsFunction = false
    · unfold renderHook
      rw [if_pos hg]
      exact iff_of_true rfl hg
    · unfold renderHook
      rw [if_neg hg]
      exact iff_of_false
        (render_no_legacy_error (ReactElement.testComponent initialProps) opts env st
          renderHookLegacyRootMessage hg) hg
  · by_cases hg : opts.legacyRoot = true ∧ env.reactDOMRenderIsFunction = false
    · unfold render
      rw [if_pos hg]
      exact iff_of_true rfl hg
    · exact iff_of_false
        (render_no_legacy_error (ReactElement.testComponent initialProps) opts env st
          legacyRootMessage hg) hg

/-- Claim C10: if any tracked root-handle's unmount throws during
`cleanup()`, the error propagates (`Promise.all` rejects) and the
tracked-root store is left completely unchanged — the entry list and the
container set keep exactly their previous elements, because the store is
only cleared after the whole batch has resolved. -/
theorem cleanup_unmount_failure_preserves_store (st : TLState) (fail : Nat → Bool)
    (h : st.mountedRootEntries.any (fun e => fail e.2.rootId) = true) :
    (cleanupWith fail st).1.mountedRootEntries = st.mountedRootEntries ∧
    (cleanupWith fail st).1.mountedContainers = st.mountedContainers ∧
    (cleanupWith fail st).2 = Except.error RTLError.unmountFailed := by
  unfold cleanupWith
  rw [if_pos h]
  exact ⟨rfl, rfl, rfl⟩

/-- Witness for C10: one tracked root whose unmount always throws. -/
theorem cleanup_unmount_failure_preserves_store_witness :
    ((render (ReactElement.ui 0) {} defaultEnv initState).1.mountedRootEntries.any
      (fun e => (fun _ => true) e.2.rootId)) = true ∧
    (cleanupWith (fun _ => true)
        (render (ReactElement.ui 0) {} defaultEnv initState).1).2
      = Except.error RTLError.unmountFailed :=
  ⟨by decide,
   (cleanup_unmount_failure_preserves_store
     (render (ReactElement.ui 0) {} defaultEnv initState).1 (fun _ => true)
     (by decide)).2.2⟩

end ReactTestingLibrary
